import Mathlib

/-!
Shallow embedding of the clickatell HTTP API client library
(`clickatell/__init__.py`): the response parser (`ClickatellResponse`,
`ClickatellError`, the `KEY_VALUE_RE` line pattern) and the API client
(`Clickatell.__init__`, `Clickatell._create_handler`,
`Clickatell.__getattribute__`, `Clickatell.METHODS`), together with
theorems settling the specification claims about them.

Python machine model used throughout:
* strings are Lean `String`s, manipulated through their character lists;
* `dict`s are association lists whose list order is construction
  bookkeeping only — the Python 2 dict observables are per-key lookup,
  size, key membership and `pyDictEq` equality, not iteration order;
* raised exceptions are `Except.error` values;
* the per-call network/connection activity of a handler is an explicit
  event trace (`ConnEvent`), and the remote gateway is a function from
  the request path and parameters to a response body.
-/

/-- Characters treated as whitespace by Python `str.strip` and by `\s`
in the `KEY_VALUE_RE` pattern: space, tab, newline, carriage return,
vertical tab, form feed. -/
def isPySpace (c : Char) : Bool :=
  c = ' ' || c = '\t' || c = '\n' || c = '\r' || c = Char.ofNat 11 || c = Char.ofNat 12

/-- Python `line.strip()`: remove leading and trailing whitespace. -/
def pyStrip (s : String) : String :=
  String.mk (((s.toList.dropWhile isPySpace).reverse.dropWhile isPySpace).reverse)

/-- Helper for `pySplit`: walks the characters, accumulating the current
field in reverse. -/
def pySplitAux (sep : Char) : List Char → List Char → List String
  | [], acc => [String.mk acc.reverse]
  | c :: cs, acc =>
    if c = sep then String.mk acc.reverse :: pySplitAux sep cs []
    else pySplitAux sep cs (c :: acc)

/-- Python `s.split(sep)` for a one-character separator: split at every
occurrence, keeping empty fields (`"a,,b".split(',') == ['a','','b']`,
`"".split(',') == ['']`). -/
def pySplit (sep : Char) (s : String) : List String :=
  pySplitAux sep s.toList []

/-- ASCII letter, the `[A-Za-z]` class of `KEY_VALUE_RE`. -/
def isAsciiAlpha (c : Char) : Bool :=
  ('A' ≤ c && c ≤ 'Z') || ('a' ≤ c && c ≤ 'z')

/-- `KEY_VALUE_RE.match(line)` for the pattern
`^([A-Za-z]+)\:\s*(.*)$`: the key is the maximal initial run of ASCII
letters, which must be non-empty and immediately followed by a colon;
the value is the remainder with leading whitespace removed (`\s*` is
greedy, and since the next char after any shorter letter run is a
letter, no backtracking on the key group is possible). Returns `none`
when the line does not match. -/
def matchLine (l : String) : Option (String × String) :=
  let cs := l.toList
  let key := cs.takeWhile isAsciiAlpha
  match key, cs.dropWhile isAsciiAlpha with
  | [], _ => none
  | _, [] => none
  | _, c :: rest =>
    if c = ':' then some (String.mk key, String.mk (rest.dropWhile isPySpace))
    else none

deriving instance DecidableEq for Except

/-- Value stored in a `ClickatellResponse` dict slot: a unique key is
stored as a string, a repeating key as the list of all its values. -/
inductive RValue where
  | single (s : String)
  | multiple (l : List String)
  deriving DecidableEq

/-- A `ClickatellResponse`: a dict from response keys to values. The
association list models the dict's slots; the order of the list is
internal bookkeeping for in-place slot updates, not an observable of
the Python 2 dict, whose iteration order is hash-slot order and
unrelated to insertion. Theorems observe a response only through its
dict observables: per-key lookup (`dictGet`), size, key membership, and
dict equality (`pyDictEq`). -/
abbrev RespMap := List (String × RValue)

/-- Python `d[k]` as an option: first binding of `k`, if any. -/
def dictGet {α : Type} (k : String) : List (String × α) → Option α
  | [] => none
  | (k', v) :: rest => if k' = k then some v else dictGet k rest

/-- Python `d[k] = v`: replace the binding in place if the key is
present, otherwise append a new binding. -/
def dictSet {α : Type} : List (String × α) → String → α → List (String × α)
  | [], k, v => [(k, v)]
  | (k', v') :: rest, k, v =>
    if k' = k then (k', v) :: rest else (k', v') :: dictSet rest k v

/-- The storage step of `_parse_response`: a fresh key is stored as a
string; a second occurrence turns the slot into a two-element list; a
later occurrence is appended to the list. -/
def store (m : RespMap) (key value : String) : RespMap :=
  match dictGet key m with
  | none => dictSet m key (RValue.single value)
  | some (RValue.single s) => dictSet m key (RValue.multiple [s, value])
  | some (RValue.multiple l) => dictSet m key (RValue.multiple (l ++ [value]))

/-- Exceptions that `_parse_response` can raise: `ClickatellError` with
an optional code and a message; `ValueError` from unpacking
`value.split(',')` into two names when the split has more than two
parts; `AttributeError` from calling `.group` on the `None` returned by
`KEY_VALUE_RE.match` on a non-matching line. -/
inductive ParseErr where
  | clickatellError (code : Option String) (message : String)
  | valueError
  | malformedLine (line : String)
  deriving DecidableEq

/-- The `ERR` branch of `_parse_response`: if the value contains a
comma it is split on every comma and unpacked into exactly two parts
(code, message) — more than two parts raise `ValueError`; with no comma
the code is `None` and the whole trimmed value is the message. -/
def errValue (value : String) : ParseErr :=
  if ',' ∈ value.toList then
    match pySplit ',' value with
    | [code, message] => ParseErr.clickatellError (some (pyStrip code)) (pyStrip message)
    | _ => ParseErr.valueError
  else ParseErr.clickatellError none (pyStrip value)

/-- The loop of `_parse_response` over the (already split) lines,
threading the dict being built: strip the line, skip it if blank, match
it against `KEY_VALUE_RE` (a non-match raises), raise on an `ERR` key,
otherwise store the pair and continue. -/
def parseLines (acc : RespMap) : List String → Except ParseErr RespMap
  | [] => Except.ok acc
  | line :: rest =>
    if pyStrip line = "" then parseLines acc rest
    else
      match matchLine (pyStrip line) with
      | none => Except.error (ParseErr.malformedLine (pyStrip line))
      | some (key, value) =>
        if key = "ERR" then Except.error (errValue value)
        else parseLines (store acc key value) rest

/-- `ClickatellResponse(data)`: split the body on newlines and run the
parsing loop on an empty dict. -/
def parseResponse (data : String) : Except ParseErr RespMap :=
  parseLines [] (pySplit '\n' data)

/-- The key/value pairs contributed by a list of raw lines: blank lines
(after stripping) and non-matching lines contribute nothing, matching
lines contribute their key and trimmed value. -/
def linePairs : List String → List (String × String)
  | [] => []
  | line :: rest =>
    if pyStrip line = "" then linePairs rest
    else
      match matchLine (pyStrip line) with
      | none => linePairs rest
      | some kv => kv :: linePairs rest

/-- The values carried by key `k` among a list of pairs, in order. -/
def valuesOf (k : String) : List (String × String) → List String
  | [] => []
  | (k', v) :: rest => if k' = k then v :: valuesOf k rest else valuesOf k rest

/-- How `_parse_response` represents the occurrence list of one key:
no occurrence is absent, one occurrence is a string, two or more are
the list of occurrences. -/
def collapse : List String → Option RValue
  | [] => none
  | [v] => some (RValue.single v)
  | v :: w :: rest => some (RValue.multiple (v :: w :: rest))

/-- The dict `m` represents the pair sequence `ps`: each key's slot is
the collapse of that key's occurrence list. -/
def represent (m : RespMap) (ps : List (String × String)) : Prop :=
  ∀ k, dictGet k m = collapse (valuesOf k ps)

/-- Python 2 `dict` equality between two parsed responses: agreement
of every key's lookup. Iteration order of a Python 2 dict is hash-slot
order: it carries no information about insertion order and takes no
part in equality. -/
def pyDictEq (m1 m2 : RespMap) : Prop :=
  ∀ k, dictGet k m1 = dictGet k m2

/-- A raw line that the parsing loop passes through without raising:
blank after stripping, or matching the pattern with a key other than
`ERR`. -/
def goodLine (l : String) : Prop :=
  pyStrip l = "" ∨ ∃ k v, matchLine (pyStrip l) = some (k, v) ∧ k ≠ "ERR"

/-- A raw line at which the parsing loop necessarily raises: non-blank
and non-matching, or matching with key `ERR`. -/
def stopsAt (l : String) : Prop :=
  (pyStrip l ≠ "" ∧ matchLine (pyStrip l) = none) ∨
    ∃ v, matchLine (pyStrip l) = some ("ERR", v)

/-- One step of the per-call connection activity of a handler created
by `_create_handler`: `self._connection.connect()`, the GET
`request`, `getresponse()`, `response.read()`, `close()`. -/
inductive ConnEvent where
  | connect
  | request (path : String) (args : List (String × RValue))
  | getresponse
  | readBody
  | close
  deriving DecidableEq

/-- The remote gateway, as a pure function from the request path and
query parameters to the response body it returns. -/
abbrev Gateway := String → List (String × RValue) → String

/-- Exceptions a client call can raise: a parse exception propagated
out of `ClickatellResponse`, a `KeyError` from `auth['OK']` when the
authentication response has no `OK` key, and an `AttributeError` from
`object.__getattribute__` for a name with no handler. -/
inductive ClientErr where
  | parse (e : ParseErr)
  | keyError
  | attributeError
  deriving DecidableEq

/-- The body of `_handler` in `_create_handler`: inject the stored
session id into the arguments when the instance has one (overwriting
any caller-supplied value), then connect, issue the GET request, read
the response and parse it. The source has no `try`/`finally`: the
`close()` call is reached only when `ClickatellResponse` does not
raise. Returns the event trace together with the parsing outcome. -/
def runHandler (session : Option RValue) (g : Gateway) (path : String)
    (args : List (String × RValue)) : List ConnEvent × Except ParseErr RespMap :=
  match session with
  | some t =>
    match parseResponse (g path (dictSet args "session_id" t)) with
    | Except.error e =>
      ([ConnEvent.connect, ConnEvent.request path (dictSet args "session_id" t),
        ConnEvent.getresponse, ConnEvent.readBody], Except.error e)
    | Except.ok m =>
      ([ConnEvent.connect, ConnEvent.request path (dictSet args "session_id" t),
        ConnEvent.getresponse, ConnEvent.readBody, ConnEvent.close], Except.ok m)
  | none =>
    match parseResponse (g path args) with
    | Except.error e =>
      ([ConnEvent.connect, ConnEvent.request path args,
        ConnEvent.getresponse, ConnEvent.readBody], Except.error e)
    | Except.ok m =>
      ([ConnEvent.connect, ConnEvent.request path args,
        ConnEvent.getresponse, ConnEvent.readBody, ConnEvent.close], Except.ok m)

/-- The client state after construction: the stored `_session_id`. -/
structure Client where
  session_id : RValue
  deriving DecidableEq

namespace Clickatell

/-- The address of the api server. -/
def SERVER : String := "api.clickatell.com"

/-- All of the methods supported by the Clickatell API, in source
order: the fixed table from symbolic operation name to server path. -/
def METHODS : List (String × String) :=
  [("auth",          "http/auth"),
   ("delmsg",        "http/delmsg"),
   ("getbalance",    "http/getbalance"),
   ("getmsgcharge",  "http/getmsgcharge"),
   ("ping",          "http/ping"),
   ("sendmsg",       "http/sendmsg"),
   ("token_pay",     "http/token_pay"),
   ("querymsg",      "http/querymsg"),
   ("startbatch",    "http_batch/startbatch"),
   ("senditem",      "http_batch/senditem"),
   ("quicksend",     "http_batch/quicksend"),
   ("endbatch",      "http_batch/endbatch"),
   ("routeCoverage", "utils/routeCoverage.php"),
   ("ind_push",      "mms/ind_push.php"),
   ("si_push",       "mms/si_push")]

end Clickatell

/-- The keyword arguments of the construction-time `self.auth(...)`
call: `user`, `password`, `api_id`, in source order. -/
def authArgsOf (user password api_id : String) : List (String × RValue) :=
  [("user", RValue.single user), ("password", RValue.single password),
   ("api_id", RValue.single api_id)]

/-- `Clickatell.__init__`: call `auth` (through its handler — at this
point `_session_id` is not yet set, so nothing is injected) and store
the `OK` value of the authentication response as `_session_id`. A
missing `OK` key raises `KeyError`. Returns the constructed client and
the connection events of the authentication call. -/
def clickatellInit (g : Gateway) (user password api_id : String) :
    Except ClientErr (Client × List ConnEvent) :=
  match runHandler none g "http/auth" (authArgsOf user password api_id) with
  | (_, Except.error e) => Except.error (ClientErr.parse e)
  | (evs, Except.ok auth) =>
    match dictGet "OK" auth with
    | none => Except.error ClientErr.keyError
    | some tok => Except.ok ({ session_id := tok }, evs)

/-- What `Clickatell.__getattribute__` hands back: a fresh operation
handler synthesized from the endpoint table, or an existing attribute
of the object reached through the `object.__getattribute__` fallback. -/
inductive Attr where
  | handler (path : String)
  | plain (nm : String)
  deriving DecidableEq

/-- The attribute names the source itself gives a `Clickatell` object:
the instance attributes assigned in `__init__` and the class's own
names. (Attributes inherited from `object`, e.g. `__class__`, also
resolve through the same fallback; they are not enumerated here.) -/
def clickatellAttrNames : List String :=
  ["_connection", "_session_id", "SERVER", "METHODS",
   "__init__", "_create_handler", "__getattribute__"]

/-- `Clickatell.__getattribute__`: a name present in `METHODS` yields a
fresh operation handler for the table's path; any other name falls back
to `object.__getattribute__`, which returns the attribute when the
object has it and raises `AttributeError` otherwise. The attribute's
value is not modelled further, only which name was returned. -/
def getattribute (c : Client) (name : String) : Except ClientErr Attr :=
  match dictGet name Clickatell.METHODS with
  | some path => Except.ok (Attr.handler path)
  | none =>
    if name ∈ clickatellAttrNames then Except.ok (Attr.plain name)
    else Except.error ClientErr.attributeError

/-- Outcome of dispatching `client.name(**args)`: a synthesized handler
ran and parsed a response, or the fallback returned one of the object's
existing attributes. In the latter case the lookup itself performs no
connection activity; what a subsequent call on the returned attribute
does is specific to that attribute (the body of bound `__init__` is
`clickatellInit`, which issues an auth request; bound `_create_handler`
just returns a closure with no connection activity; the non-callable
attributes raise `TypeError` when called). -/
inductive CallResult where
  | response (m : RespMap)
  | fallback (nm : String)
  deriving DecidableEq

/-- A user-initiated operation call `client.name(**args)`:
`__getattribute__` resolves the name, a synthesized handler issues its
GET request, and a name outside the table either returns an existing
attribute of the object (no connection activity during the lookup) or
raises `AttributeError` before any connection activity. Returns the
outcome and the connection event trace of the dispatch. -/
def callOperation (c : Client) (g : Gateway) (name : String)
    (args : List (String × RValue)) : Except ClientErr CallResult × List ConnEvent :=
  match getattribute c name with
  | Except.error e => (Except.error e, [])
  | Except.ok (Attr.plain nm) => (Except.ok (CallResult.fallback nm), [])
  | Except.ok (Attr.handler path) =>
    (((runHandler (some c.session_id) g path args).2.mapError ClientErr.parse).map
       CallResult.response,
     (runHandler (some c.session_id) g path args).1)

/-- The GET requests contained in a connection event trace. -/
def requestsOf : List ConnEvent → List (String × List (String × RValue))
  | [] => []
  | ConnEvent.request p a :: rest => (p, a) :: requestsOf rest
  | _ :: rest => requestsOf rest

/-- A gateway that answers every request with `OK: tok123`, for
concrete instantiations. -/
def demoGateway : Gateway := fun _ _ => "OK: tok123"

/-- A gateway that answers every request with an `ERR` line, for
concrete instantiations. -/
def demoErrGateway : Gateway := fun _ _ => "ERR: 001, Authentication failed"

/-! ## Helper lemmas -/

theorem parseLines_cons (acc : RespMap) (line : String) (rest : List String) :
    parseLines acc (line :: rest) =
      if pyStrip line = "" then parseLines acc rest
      else
        match matchLine (pyStrip line) with
        | none => Except.error (ParseErr.malformedLine (pyStrip line))
        | some (key, value) =>
          if key = "ERR" then Except.error (errValue value)
          else parseLines (store acc key value) rest := rfl

theorem linePairs_cons (line : String) (rest : List String) :
    linePairs (line :: rest) =
      if pyStrip line = "" then linePairs rest
      else
        match matchLine (pyStrip line) with
        | none => linePairs rest
        | some kv => kv :: linePairs rest := rfl

theorem dictGet_dictSet_self {α : Type} (m : List (String × α)) (k : String) (v : α) :
    dictGet k (dictSet m k v) = some v := by
  induction m with
  | nil => simp [dictGet, dictSet]
  | cons p rest ih =>
    obtain ⟨k', v'⟩ := p
    by_cases h : k' = k
    · simp [dictGet, dictSet, h]
    · simp [dictGet, dictSet, h, ih]

theorem dictGet_dictSet_ne {α : Type} (m : List (String × α)) (k k' : String) (v : α)
    (h : k' ≠ k) : dictGet k' (dictSet m k v) = dictGet k' m := by
  induction m with
  | nil => simp [dictGet, dictSet, Ne.symm h]
  | cons p rest ih =>
    obtain ⟨a, b⟩ := p
    by_cases ha : a = k
    · subst ha
      simp [dictGet, dictSet, Ne.symm h]
    · simp only [dictSet, if_neg ha]
      by_cases ha' : a = k'
      · simp [dictGet, ha']
      · simp [dictGet, ha', ih]

theorem dictSet_of_get_none {α : Type} (m : List (String × α)) (k : String) (v : α)
    (h : dictGet k m = none) : dictSet m k v = m ++ [(k, v)] := by
  induction m with
  | nil => simp [dictSet]
  | cons p rest ih =>
    obtain ⟨a, b⟩ := p
    simp only [dictGet] at h
    by_cases ha : a = k
    · simp [ha] at h
    · simp only [if_neg ha] at h
      simp [dictSet, ha, ih h]

theorem dictGet_append_of_none {α : Type} (k : String) (m₁ m₂ : List (String × α))
    (h : dictGet k m₁ = none) : dictGet k (m₁ ++ m₂) = dictGet k m₂ := by
  induction m₁ with
  | nil => simp
  | cons p rest ih =>
    obtain ⟨a, b⟩ := p
    simp only [dictGet] at h
    by_cases ha : a = k
    · simp [ha] at h
    · simp only [if_neg ha] at h
      simp [dictGet, ha, ih h]

theorem dictGet_singleton_ne {α : Type} (k k' : String) (v : α) (h : k' ≠ k) :
    dictGet k' [(k, v)] = none := by
  simp [dictGet, Ne.symm h]

theorem store_fresh (m : RespMap) (k v : String) (h : dictGet k m = none) :
    store m k v = m ++ [(k, RValue.single v)] := by
  simp [store, h, dictSet_of_get_none m k _ h]

theorem dictGet_store_ne (m : RespMap) (k k' v : String) (h : k' ≠ k) :
    dictGet k' (store m k v) = dictGet k' m := by
  unfold store
  cases hget : dictGet k m with
  | none => exact dictGet_dictSet_ne m k k' _ h
  | some rv => cases rv <;> exact dictGet_dictSet_ne m k k' _ h

theorem collapse_eq_none {xs : List String} : collapse xs = none ↔ xs = [] := by
  cases xs with
  | nil => simp [collapse]
  | cons a t => cases t <;> simp [collapse]

theorem collapse_eq_single {xs : List String} {s : String} :
    collapse xs = some (RValue.single s) ↔ xs = [s] := by
  cases xs with
  | nil => simp [collapse]
  | cons a t => cases t <;> simp [collapse]

theorem collapse_eq_multiple {xs l : List String} :
    collapse xs = some (RValue.multiple l) ↔ xs = l ∧ ∃ a b t, xs = a :: b :: t := by
  cases xs with
  | nil => simp [collapse]
  | cons a t =>
    cases t with
    | nil => simp [collapse]
    | cons b t' =>
      constructor
      · intro h
        simp only [collapse, Option.some.injEq, RValue.multiple.injEq] at h
        exact ⟨h, a, b, t', rfl⟩
      · rintro ⟨h, -⟩
        simp [collapse, h]

theorem valuesOf_append (k : String) (ps qs : List (String × String)) :
    valuesOf k (ps ++ qs) = valuesOf k ps ++ valuesOf k qs := by
  induction ps with
  | nil => simp [valuesOf]
  | cons p rest ih =>
    obtain ⟨a, b⟩ := p
    by_cases ha : a = k <;> simp [valuesOf, ha, ih]

theorem represent_nil : represent [] [] := by
  intro k
  rfl

theorem represent_store (m : RespMap) (ps : List (String × String)) (k v : String)
    (h : represent m ps) : represent (store m k v) (ps ++ [(k, v)]) := by
  intro k'
  rw [valuesOf_append]
  by_cases hk : k' = k
  · subst hk
    have hone : valuesOf k' [(k', v)] = [v] := by simp [valuesOf]
    rw [hone]
    cases hget : dictGet k' m with
    | none =>
      have hvals : valuesOf k' ps = [] := by
        have := (h k').symm.trans hget
        exact collapse_eq_none.mp this
      rw [hvals]
      simp only [store, hget, List.nil_append]
      rw [dictGet_dictSet_self]
      rfl
    | some rv =>
      cases rv with
      | single s =>
        have hvals : valuesOf k' ps = [s] := by
          have := (h k').symm.trans hget
          exact collapse_eq_single.mp this
        rw [hvals]
        simp only [store, hget]
        rw [dictGet_dictSet_self]
        rfl
      | multiple l =>
        have hvals : valuesOf k' ps = l ∧ ∃ a b t, valuesOf k' ps = a :: b :: t := by
          have := (h k').symm.trans hget
          exact collapse_eq_multiple.mp this
        obtain ⟨hvl, a, b, t, hshape⟩ := hvals
        simp only [store, hget]
        rw [dictGet_dictSet_self, ← hvl, hshape]
        rfl
  · have hnone : valuesOf k' [(k, v)] = [] := by
      simp [valuesOf, Ne.symm hk]
    rw [hnone, List.append_nil, dictGet_store_ne m k k' v hk]
    exact h k'

theorem parseLines_represent :
    ∀ (lines : List String) (acc : RespMap) (ps : List (String × String)) (m : RespMap),
      represent acc ps → parseLines acc lines = Except.ok m →
      represent m (ps ++ linePairs lines) := by
  intro lines
  induction lines with
  | nil =>
    intro acc ps m h hok
    simp only [parseLines, Except.ok.injEq] at hok
    subst hok
    simpa [linePairs] using h
  | cons line rest ih =>
    intro acc ps m h hok
    rw [parseLines_cons] at hok
    rw [linePairs_cons]
    by_cases hempty : pyStrip line = ""
    · rw [if_pos hempty] at hok
      rw [if_pos hempty]
      exact ih acc ps m h hok
    · rw [if_neg hempty] at hok
      rw [if_neg hempty]
      cases hmatch : matchLine (pyStrip line) with
      | none => simp [hmatch] at hok
      | some kv =>
        obtain ⟨k, v⟩ := kv
        simp only [hmatch] at hok
        by_cases herr : k = "ERR"
        · rw [if_pos herr] at hok; cases hok
        · rw [if_neg herr] at hok
          have h' := represent_store acc ps k v h
          have hres := ih (store acc k v) (ps ++ [(k, v)]) m h' hok
          simp only [hmatch]
          simpa [List.append_assoc] using hres

theorem parseLines_all_good :
    ∀ (lines : List String) (acc : RespMap),
      (∀ l ∈ lines, goodLine l) →
      (∀ p ∈ linePairs lines, dictGet p.1 acc = none) →
      ((linePairs lines).map Prod.fst).Nodup →
      parseLines acc lines =
        Except.ok (acc ++ (linePairs lines).map (fun p => (p.1, RValue.single p.2))) := by
  intro lines
  induction lines with
  | nil =>
    intro acc _ _ _
    simp [parseLines, linePairs]
  | cons line rest ih =>
    intro acc hgood hfresh hnodup
    rw [parseLines_cons]
    by_cases hempty : pyStrip line = ""
    · simp only [linePairs_cons, if_pos hempty] at hfresh hnodup ⊢
      exact ih acc (fun l hl => hgood l (List.mem_cons_of_mem line hl)) hfresh hnodup
    · rcases hgood line (List.mem_cons_self line rest) with h0 | ⟨k, v, hm, hne⟩
      · exact absurd h0 hempty
      · simp only [linePairs_cons, if_neg hempty, hm] at hfresh hnodup ⊢
        rw [if_neg hne]
        have hkfresh : dictGet k acc = none := hfresh (k, v) (List.mem_cons_self _ _)
        rw [store_fresh acc k v hkfresh]
        have hnotin : k ∉ (linePairs rest).map Prod.fst := by
          simp only [List.map_cons, List.nodup_cons] at hnodup
          exact hnodup.1
        have hfresh' : ∀ p ∈ linePairs rest, dictGet p.1 (acc ++ [(k, RValue.single v)]) = none := by
          intro p hp
          have hpk : p.1 ≠ k := by
            intro hval
            exact hnotin (hval ▸ List.mem_map_of_mem Prod.fst hp)
          rw [dictGet_append_of_none p.1 acc [(k, RValue.single v)]
              (hfresh p (List.mem_cons_of_mem _ hp))]
          exact dictGet_singleton_ne k p.1 (RValue.single v) hpk
        have hnodup' : ((linePairs rest).map Prod.fst).Nodup := by
          simp only [List.map_cons, List.nodup_cons] at hnodup
          exact hnodup.2
        rw [ih (acc ++ [(k, RValue.single v)])
            (fun l hl => hgood l (List.mem_cons_of_mem line hl)) hfresh' hnodup']
        simp

theorem stopsAt_error (l : String) (h : stopsAt l) :
    ∃ e, ∀ (acc : RespMap) (rest : List String),
      parseLines acc (l :: rest) = Except.error e := by
  rcases h with ⟨hne, hnone⟩ | ⟨v, hv⟩
  · refine ⟨ParseErr.malformedLine (pyStrip l), fun acc rest => ?_⟩
    rw [parseLines_cons, if_neg hne]
    simp [hnone]
  · have hne : pyStrip l ≠ "" := by
      intro h0
      rw [h0] at hv
      exact Option.noConfusion hv
    refine ⟨errValue v, fun acc rest => ?_⟩
    rw [parseLines_cons, if_neg hne]
    simp [hv]

theorem parseLines_cut (pre : List String) (l : String) (h : stopsAt l) :
    ∀ (suf : List String) (acc : RespMap),
      parseLines acc (pre ++ l :: suf) = parseLines acc (pre ++ [l]) := by
  obtain ⟨e, he⟩ := stopsAt_error l h
  induction pre with
  | nil =>
    intro suf acc
    simp only [List.nil_append]
    rw [he acc suf, he acc []]
  | cons p pre ih =>
    intro suf acc
    simp only [List.cons_append]
    rw [parseLines_cons, parseLines_cons]
    by_cases hp : pyStrip p = ""
    · rw [if_pos hp, if_pos hp]
      exact ih suf acc
    · rw [if_neg hp, if_neg hp]
      cases hm : matchLine (pyStrip p) with
      | none => rfl
      | some kv =>
        obtain ⟨k, v⟩ := kv
        by_cases hk : k = "ERR"
        · simp [hk]
        · simp only [if_neg hk]
          exact ih suf (store acc k v)

theorem parseLines_stops (pre : List String) (l : String) (h : stopsAt l) :
    ∀ acc : RespMap, ∃ e, parseLines acc (pre ++ [l]) = Except.error e := by
  induction pre with
  | nil =>
    intro acc
    obtain ⟨e, he⟩ := stopsAt_error l h
    exact ⟨e, he acc []⟩
  | cons p pre ih =>
    intro acc
    rw [List.cons_append, parseLines_cons]
    by_cases hp : pyStrip p = ""
    · rw [if_pos hp]
      exact ih acc
    · rw [if_neg hp]
      cases hm : matchLine (pyStrip p) with
      | none => exact ⟨ParseErr.malformedLine (pyStrip p), rfl⟩
      | some kv =>
        obtain ⟨k, v⟩ := kv
        by_cases hk : k = "ERR"
        · exact ⟨errValue v, by simp [hk]⟩
        · simp only [if_neg hk]
          exact ih (store acc k v)

theorem parseLines_err :
    ∀ (pre : List String), (∀ l' ∈ pre, goodLine l') →
      ∀ (l v : String), matchLine (pyStrip l) = some ("ERR", v) →
      ∀ (suf : List String) (acc : RespMap),
        parseLines acc (pre ++ l :: suf) = Except.error (errValue v) := by
  intro pre
  induction pre with
  | nil =>
    intro _ l v hl suf acc
    have hne : pyStrip l ≠ "" := by
      intro h0
      rw [h0] at hl
      exact Option.noConfusion hl
    simp only [List.nil_append]
    rw [parseLines_cons, if_neg hne]
    simp [hl]
  | cons p pre ih =>
    intro hgood l v hl suf acc
    simp only [List.cons_append]
    rw [parseLines_cons]
    rcases hgood p (List.mem_cons_self p pre) with h0 | ⟨k, w, hm, hkne⟩
    · rw [if_pos h0]
      exact ih (fun x hx => hgood x (List.mem_cons_of_mem p hx)) l v hl suf acc
    · have hpne : pyStrip p ≠ "" := by
        intro hh
        rw [hh] at hm
        exact Option.noConfusion hm
      rw [if_neg hpne]
      simp only [hm, if_neg hkne]
      exact ih (fun x hx => hgood x (List.mem_cons_of_mem p hx)) l v hl suf (store acc k w)

theorem requestsOf_runHandler_some (t : RValue) (g : Gateway) (path : String)
    (args : List (String × RValue)) :
    requestsOf (runHandler (some t) g path args).1 = [(path, dictSet args "session_id" t)] := by
  unfold runHandler
  cases hpr : parseResponse (g path (dictSet args "session_id" t)) <;> simp [hpr, requestsOf]

theorem requestsOf_runHandler_none (g : Gateway) (path : String)
    (args : List (String × RValue)) :
    requestsOf (runHandler none g path args).1 = [(path, args)] := by
  unfold runHandler
  cases hpr : parseResponse (g path args) <;> simp [hpr, requestsOf]

theorem dictGet_isSome_iff {α : Type} (k : String) (m : List (String × α)) :
    (∃ v, dictGet k m = some v) ↔ k ∈ m.map Prod.fst := by
  induction m with
  | nil => simp [dictGet]
  | cons p rest ih =>
    obtain ⟨a, b⟩ := p
    by_cases ha : a = k
    · subst ha
      simp [dictGet]
    · simp [dictGet, ha, Ne.symm ha, ih]

theorem dictGet_map_single :
    ∀ ps : List (String × String), ((ps.map Prod.fst).Nodup) →
      ∀ p ∈ ps, dictGet p.1 (ps.map (fun q => (q.1, RValue.single q.2))) =
        some (RValue.single p.2) := by
  intro ps
  induction ps with
  | nil =>
    intro _ p hp
    simp at hp
  | cons q rest ih =>
    intro hnodup p hp
    obtain ⟨q1, q2⟩ := q
    simp only [List.map_cons, List.nodup_cons] at hnodup
    rcases List.mem_cons.mp hp with h | h
    · subst h
      simp [dictGet]
    · have hne : q1 ≠ p.1 := by
        intro he
        have hmem : p.1 ∈ rest.map Prod.fst := List.mem_map_of_mem Prod.fst h
        rw [← he] at hmem
        exact hnodup.1 hmem
      simp only [List.map_cons, dictGet, if_neg hne]
      exact ih hnodup.2 p h

theorem getattribute_handler (c : Client) (name path : String)
    (h : dictGet name Clickatell.METHODS = some path) :
    getattribute c name = Except.ok (Attr.handler path) := by
  simp [getattribute, h]

theorem callOperation_handler (c : Client) (g : Gateway) (name path : String)
    (args : List (String × RValue))
    (h : dictGet name Clickatell.METHODS = some path) :
    callOperation c g name args =
      (((runHandler (some c.session_id) g path args).2.mapError ClientErr.parse).map
         CallResult.response,
       (runHandler (some c.session_id) g path args).1) := by
  simp [callOperation, getattribute_handler c name path h]

/-! ## Claim theorems -/

/-- Counterexample to C1 as stated: the order-preservation clause
fails. The two concrete inputs `"A: 1\nB: 2"` and `"B: 2\nA: 1"` list
the same lines in opposite order, and the code parses them to equal
Python dicts (`pyDictEq`, the program's observable equality on
responses), while the claimed preserved key orders differ (`[A, B]`
versus `[B, A]`). One dict cannot match two different orders, so at
least one of these two inputs refutes the order clause: the result of
`_parse_response` is a Python 2 dict, which stores no insertion order
and iterates in hash-slot order. -/
theorem claim_C1_counterexample :
    parseResponse "A: 1\nB: 2" =
      Except.ok [("A", RValue.single "1"), ("B", RValue.single "2")] ∧
    parseResponse "B: 2\nA: 1" =
      Except.ok [("B", RValue.single "2"), ("A", RValue.single "1")] ∧
    pyDictEq [("A", RValue.single "1"), ("B", RValue.single "2")]
      [("B", RValue.single "2"), ("A", RValue.single "1")] ∧
    (linePairs (pySplit '\n' "A: 1\nB: 2")).map Prod.fst ≠
      (linePairs (pySplit '\n' "B: 2\nA: 1")).map Prod.fst := by
  refine ⟨by decide, by decide, ?_, by decide⟩
  intro k
  by_cases h1 : k = "A"
  · subst h1; decide
  · by_cases h2 : k = "B"
    · subst h2; decide
    · simp [dictGet, Ne.symm h1, Ne.symm h2]

/-- Claim C1 as amended: for every response text that contains no `ERR`
line and no duplicate keys, and in which every non-empty line (after
trimming) matches the pattern letters-colon-rest, parsing returns a
mapping containing exactly one entry per non-empty line — its size is
the number of non-empty lines, each line's key looks up to its single
trimmed value, and the keys present are exactly the lines' keys. (No
key order: the result is a Python 2 dict, which carries none.) -/
theorem claim_C1_amended (data : String)
    (hgood : ∀ l ∈ pySplit '\n' data, goodLine l)
    (hnodup : ((linePairs (pySplit '\n' data)).map Prod.fst).Nodup) :
    ∃ m, parseResponse data = Except.ok m ∧
      m.length = (linePairs (pySplit '\n' data)).length ∧
      (∀ p ∈ linePairs (pySplit '\n' data), dictGet p.1 m = some (RValue.single p.2)) ∧
      (∀ k, (∃ v, dictGet k m = some v) ↔
        k ∈ (linePairs (pySplit '\n' data)).map Prod.fst) := by
  have h := parseLines_all_good (pySplit '\n' data) [] hgood (fun p _ => rfl) hnodup
  refine ⟨(linePairs (pySplit '\n' data)).map (fun p => (p.1, RValue.single p.2)),
    ?_, by simp, ?_, ?_⟩
  · simpa [parseResponse] using h
  · exact dictGet_map_single (linePairs (pySplit '\n' data)) hnodup
  · intro k
    rw [dictGet_isSome_iff]
    have hkeys :
        ((linePairs (pySplit '\n' data)).map
          (fun p => (p.1, RValue.single p.2))).map Prod.fst =
          (linePairs (pySplit '\n' data)).map Prod.fst := by
      simp [List.map_map, Function.comp]
    rw [hkeys]

/-- Witness for C1 at the concrete response `"ID: abc\nStatus: ok"`. -/
theorem claim_C1_witness :
    ∃ m, parseResponse "ID: abc\nStatus: ok" = Except.ok m ∧
      m.length = (linePairs (pySplit '\n' "ID: abc\nStatus: ok")).length ∧
      (∀ p ∈ linePairs (pySplit '\n' "ID: abc\nStatus: ok"),
        dictGet p.1 m = some (RValue.single p.2)) ∧
      (∀ k, (∃ v, dictGet k m = some v) ↔
        k ∈ (linePairs (pySplit '\n' "ID: abc\nStatus: ok")).map Prod.fst) :=
  claim_C1_amended "ID: abc\nStatus: ok"
    (by
      intro l hl
      have hsplit : pySplit '\n' "ID: abc\nStatus: ok" = ["ID: abc", "Status: ok"] := rfl
      rw [hsplit] at hl
      simp only [List.mem_cons, List.not_mem_nil, or_false] at hl
      rcases hl with h | h <;> subst h
      · exact Or.inr ⟨"ID", "abc", by decide, by decide⟩
      · exact Or.inr ⟨"Status", "ok", by decide, by decide⟩)
    (by decide)

/-- Claim C2: in a successfully parsed response, a key appearing two or
more times among the parsed lines maps to the ordered sequence of all
its occurrences, and a key appearing exactly once maps to that single
string, never a sequence. -/
theorem claim_C2 (data : String) (m : RespMap) (k : String)
    (h : parseResponse data = Except.ok m) :
    (2 ≤ (valuesOf k (linePairs (pySplit '\n' data))).length →
      dictGet k m = some (RValue.multiple (valuesOf k (linePairs (pySplit '\n' data))))) ∧
    (∀ v, valuesOf k (linePairs (pySplit '\n' data)) = [v] →
      dictGet k m = some (RValue.single v)) := by
  have hrep := parseLines_represent (pySplit '\n' data) [] [] m represent_nil h
  rw [List.nil_append] at hrep
  constructor
  · intro hlen
    have hk := hrep k
    cases hvs : valuesOf k (linePairs (pySplit '\n' data)) with
    | nil => rw [hvs] at hlen; simp at hlen
    | cons a t =>
      cases t with
      | nil => rw [hvs] at hlen; simp at hlen
      | cons b t' =>
        rw [hvs] at hk
        exact hk
  · intro v hv
    have hk := hrep k
    rw [hv] at hk
    exact hk

/-- Witness for C2 at the concrete response `"ID: a\nID: b\nStatus: ok"`
with the repeated key `ID`. -/
theorem claim_C2_witness :
    dictGet "ID" [("ID", RValue.multiple ["a", "b"]), ("Status", RValue.single "ok")] =
      some (RValue.multiple (valuesOf "ID" (linePairs (pySplit '\n' "ID: a\nID: b\nStatus: ok")))) :=
  (claim_C2 "ID: a\nID: b\nStatus: ok"
    [("ID", RValue.multiple ["a", "b"]), ("Status", RValue.single "ok")] "ID"
    (by decide)).1 (by decide)

/-- Counterexample to C3 as stated: for the ERR value
`"120, Invalid, login"` (two commas) the claim predicts the typed error
with code `"120"` and message `"Invalid, login"` (split on the first
comma only), but the code splits on every comma, the two-name unpacking
fails, and parsing raises an untyped `ValueError` instead. -/
theorem claim_C3_counterexample :
    parseResponse "ERR: 120, Invalid, login" = Except.error ParseErr.valueError ∧
    parseResponse "ERR: 120, Invalid, login" ≠
      Except.error (ParseErr.clickatellError (some "120") "Invalid, login") := by
  constructor <;> decide

/-- Claim C3 as amended: when the first raising line has key `ERR` with
value `v`, parsing fails with `errValue v`, where: no comma in `v`
gives the typed error with absent code and message the trimmed value;
exactly one comma (a two-part split) gives the typed error with the
left part trimmed as code and the right part trimmed as message; two or
more commas give an untyped `ValueError` rather than the typed error. -/
theorem claim_C3_amended (data : String) (pre : List String) (l : String) (suf : List String)
    (v : String) (hsplit : pySplit '\n' data = pre ++ l :: suf)
    (hpre : ∀ l' ∈ pre, goodLine l')
    (hl : matchLine (pyStrip l) = some ("ERR", v)) :
    parseResponse data = Except.error (errValue v) ∧
    (¬ ',' ∈ v.toList → errValue v = ParseErr.clickatellError none (pyStrip v)) ∧
    (∀ code message, ',' ∈ v.toList → pySplit ',' v = [code, message] →
      errValue v = ParseErr.clickatellError (some (pyStrip code)) (pyStrip message)) ∧
    (∀ a b x rest, ',' ∈ v.toList → pySplit ',' v = a :: b :: x :: rest →
      errValue v = ParseErr.valueError) := by
  refine ⟨?_, ?_, ?_, ?_⟩
  · simp only [parseResponse]
    rw [hsplit]
    exact parseLines_err pre hpre l v hl suf []
  · intro hmem
    unfold errValue
    rw [if_neg hmem]
  · intro code message hmem hv
    unfold errValue
    rw [if_pos hmem, hv]
  · intro a b x rest hmem hv
    unfold errValue
    rw [if_pos hmem, hv]

/-- Witness for C3 at the concrete response
`"ID: 1\nERR: 120, Invalid login\nX: 2"`: parsing fails with code
`"120"` and message `"Invalid login"`. -/
theorem claim_C3_witness :
    parseResponse "ID: 1\nERR: 120, Invalid login\nX: 2" =
      Except.error (ParseErr.clickatellError (some "120") "Invalid login") :=
  (claim_C3_amended "ID: 1\nERR: 120, Invalid login\nX: 2" ["ID: 1"]
    "ERR: 120, Invalid login" ["X: 2"] "120, Invalid login" (by decide)
    (by
      intro l' hl'
      simp only [List.mem_cons, List.not_mem_nil, or_false] at hl'
      subst hl'
      exact Or.inr ⟨"ID", "1", by decide, by decide⟩)
    (by decide)).1

/-- Claim C4: a response text containing an `ERR` line fails
immediately at that line: the lines after it are never examined (the
parse result on the whole text equals the result with the suffix
removed), and no mapping is ever produced for that call. -/
theorem claim_C4 (data : String) (pre : List String) (l : String) (suf : List String)
    (v : String) (hsplit : pySplit '\n' data = pre ++ l :: suf)
    (hl : matchLine (pyStrip l) = some ("ERR", v)) :
    (∀ acc, parseLines acc (pre ++ l :: suf) = parseLines acc (pre ++ [l])) ∧
    (∀ m, parseResponse data ≠ Except.ok m) := by
  have hstop : stopsAt l := Or.inr ⟨v, hl⟩
  refine ⟨fun acc => parseLines_cut pre l hstop suf acc, fun m hok => ?_⟩
  simp only [parseResponse] at hok
  rw [hsplit, parseLines_cut pre l hstop suf []] at hok
  obtain ⟨e, he⟩ := parseLines_stops pre l hstop []
  rw [he] at hok
  exact Except.noConfusion hok

/-- Witness for C4 at the concrete response
`"ID: 1\nERR: 301, no credit\nID: 2"`: the pairs accumulated before the
`ERR` line do not become a result. -/
theorem claim_C4_witness :
    parseResponse "ID: 1\nERR: 301, no credit\nID: 2" ≠
      Except.ok [("ID", RValue.single "1")] :=
  (claim_C4 "ID: 1\nERR: 301, no credit\nID: 2" ["ID: 1"] "ERR: 301, no credit"
    ["ID: 2"] "301, no credit" (by decide) (by decide)).2 [("ID", RValue.single "1")]

/-- Claim C9: a response text containing a non-empty line (after
trimming) that does not match the letters-colon-rest pattern never
parses successfully: parsing raises an error instead of silently
dropping the line and continuing. -/
theorem claim_C9 (data : String) (l : String) (hmem : l ∈ pySplit '\n' data)
    (hne : pyStrip l ≠ "") (hmatch : matchLine (pyStrip l) = none) :
    ∃ e, parseResponse data = Except.error e := by
  obtain ⟨pre, suf, hsplit⟩ := List.append_of_mem hmem
  have hstop : stopsAt l := Or.inl ⟨hne, hmatch⟩
  obtain ⟨e, he⟩ := parseLines_stops pre l hstop []
  refine ⟨e, ?_⟩
  simp only [parseResponse]
  rw [hsplit, parseLines_cut pre l hstop suf [], he]

/-- Witness for C9 at the concrete malformed response
`"this is not valid"`. -/
theorem claim_C9_witness : ∃ e, parseResponse "this is not valid" = Except.error e :=
  claim_C9 "this is not valid" "this is not valid" (by decide) (by decide) (by decide)

/-- Claim C5: successful construction performs exactly one request —
the auth call with parameters user, password, api_id and no session
token injected; the stored session token equals the `OK` value of that
authentication response; and every subsequent operation call injects
exactly that token under the key `session_id`. -/
theorem claim_C5 (g : Gateway) (u pw api : String) (c : Client) (evs : List ConnEvent)
    (h : clickatellInit g u pw api = Except.ok (c, evs)) :
    requestsOf evs = [("http/auth", authArgsOf u pw api)] ∧
    dictGet "session_id" (authArgsOf u pw api) = none ∧
    (∃ m, parseResponse (g "http/auth" (authArgsOf u pw api)) = Except.ok m ∧
      dictGet "OK" m = some c.session_id) ∧
    (∀ name path args, dictGet name Clickatell.METHODS = some path →
      requestsOf (callOperation c g name args).2 =
        [(path, dictSet args "session_id" c.session_id)] ∧
      dictGet "session_id" (dictSet args "session_id" c.session_id) =
        some c.session_id) := by
  cases hpr : parseResponse (g "http/auth" (authArgsOf u pw api)) with
  | error e => simp [clickatellInit, runHandler, hpr] at h
  | ok m0 =>
    simp only [clickatellInit, runHandler, hpr] at h
    cases hok : dictGet "OK" m0 with
    | none => simp [hok] at h
    | some tok =>
      simp only [hok, Except.ok.injEq, Prod.mk.injEq] at h
      obtain ⟨hc, hevs⟩ := h
      subst hevs
      refine ⟨by simp [requestsOf], rfl, ⟨m0, rfl, by rw [← hc]; exact hok⟩, ?_⟩
      intro name path args hname
      refine ⟨?_, dictGet_dictSet_self args "session_id" c.session_id⟩
      rw [callOperation_handler c g name path args hname]
      exact requestsOf_runHandler_some c.session_id g path args

/-- Witness for C5: a gateway answering `OK: tok123` yields a client
whose single construction request is the auth call. -/
theorem claim_C5_witness :
    requestsOf [ConnEvent.connect, ConnEvent.request "http/auth" (authArgsOf "u" "pw" "api"),
      ConnEvent.getresponse, ConnEvent.readBody, ConnEvent.close] =
      [("http/auth", authArgsOf "u" "pw" "api")] :=
  (claim_C5 demoGateway "u" "pw" "api" { session_id := RValue.single "tok123" }
    [ConnEvent.connect, ConnEvent.request "http/auth" (authArgsOf "u" "pw" "api"),
     ConnEvent.getresponse, ConnEvent.readBody, ConnEvent.close] (by decide)).1

/-- Counterexample to C6 as stated: when the gateway answers with an
`ERR` line the handler raises while parsing, and the `close()` call on
the per-call connection is never reached — the resource is not released
on the failure path. -/
theorem claim_C6_counterexample :
    (runHandler (some (RValue.single "tok")) demoErrGateway "http/ping" []).2 =
      Except.error (ParseErr.clickatellError (some "001") "Authentication failed") ∧
    ConnEvent.close ∉ (runHandler (some (RValue.single "tok")) demoErrGateway "http/ping" []).1 := by
  constructor <;> decide

/-- Claim C6 as amended: the response body is always read, and the
connection is closed exactly when parsing succeeds; on a parse error
(including an `ERR` line) the connection is left unclosed. -/
theorem claim_C6_amended (session : Option RValue) (g : Gateway) (path : String)
    (args : List (String × RValue)) :
    (ConnEvent.close ∈ (runHandler session g path args).1 ↔
      ∃ m, (runHandler session g path args).2 = Except.ok m) ∧
    ConnEvent.readBody ∈ (runHandler session g path args).1 := by
  cases session with
  | none =>
    unfold runHandler
    cases hpr : parseResponse (g path args) <;> simp [hpr]
  | some t =>
    unfold runHandler
    cases hpr : parseResponse (g path (dictSet args "session_id" t)) <;> simp [hpr]

/-- Counterexample to C7 as stated: `"__init__"` is not in the
endpoint table, yet requesting it does not fail — `__getattribute__`
falls back to plain object attribute access and returns the bound
method — and calling it (its body is `clickatellInit`) issues a network
request, the auth GET. Likewise `"_create_handler"` is returned without
failing. So neither "fails before any network request" nor "a request
is only ever issued for table names" holds of the code. -/
theorem claim_C7_counterexample :
    dictGet "__init__" Clickatell.METHODS = none ∧
    callOperation { session_id := RValue.single "tok" } demoGateway "__init__" [] =
      (Except.ok (CallResult.fallback "__init__"), []) ∧
    callOperation { session_id := RValue.single "tok" } demoGateway "_create_handler" [] =
      (Except.ok (CallResult.fallback "_create_handler"), []) ∧
    clickatellInit demoGateway "u" "pw" "api" =
      Except.ok ({ session_id := RValue.single "tok123" },
        [ConnEvent.connect, ConnEvent.request "http/auth" (authArgsOf "u" "pw" "api"),
         ConnEvent.getresponse, ConnEvent.readBody, ConnEvent.close]) ∧
    requestsOf [ConnEvent.connect, ConnEvent.request "http/auth" (authArgsOf "u" "pw" "api"),
      ConnEvent.getresponse, ConnEvent.readBody, ConnEvent.close] ≠ [] := by
  refine ⟨?_, ?_, ?_, ?_, ?_⟩ <;> decide

/-- Claim C7 as amended: for a name outside the endpoint table the call
fails with `AttributeError` before any network request exactly when the
name is not an existing attribute of the object either; a name that is
an existing attribute (such as `__init__` or `_create_handler`) is
returned by the `object.__getattribute__` fallback without failing —
and calling the returned bound `__init__` itself issues a network
request. In every non-table case the lookup/dispatch itself performs no
connection activity. -/
theorem claim_C7_amended (c : Client) (g : Gateway) (name : String)
    (args : List (String × RValue))
    (hname : dictGet name Clickatell.METHODS = none) :
    (name ∉ clickatellAttrNames →
      callOperation c g name args = (Except.error ClientErr.attributeError, [])) ∧
    (name ∈ clickatellAttrNames →
      callOperation c g name args = (Except.ok (CallResult.fallback name), [])) ∧
    (callOperation c g name args).2 = [] := by
  have hget : getattribute c name =
      (if name ∈ clickatellAttrNames then Except.ok (Attr.plain name)
       else Except.error ClientErr.attributeError) := by
    simp [getattribute, hname]
  by_cases hmem : name ∈ clickatellAttrNames
  · rw [if_pos hmem] at hget
    exact ⟨fun h => absurd hmem h, fun _ => by simp [callOperation, hget],
      by simp [callOperation, hget]⟩
  · rw [if_neg hmem] at hget
    exact ⟨fun _ => by simp [callOperation, hget], fun h => absurd h hmem,
      by simp [callOperation, hget]⟩

/-- Witness for C7 at the name `"bogus"`, which is neither a table
entry nor an attribute. -/
theorem claim_C7_witness :
    callOperation { session_id := RValue.single "t" } demoGateway "bogus" [] =
      (Except.error ClientErr.attributeError, []) :=
  (claim_C7_amended { session_id := RValue.single "t" } demoGateway "bogus" []
    (by decide)).1 (by decide)

/-- Counterexample to C8 as stated: the endpoint table does not have
fourteen distinct operation names — it has fifteen. -/
theorem claim_C8_counterexample :
    ((Clickatell.METHODS.map Prod.fst).dedup).length ≠ 14 := by decide

/-- Claim C8 as amended: the fixed endpoint table contains exactly
fifteen distinct symbolic operation names, including auth, sendmsg,
getbalance and routeCoverage with their server-relative paths. -/
theorem claim_C8_amended :
    (Clickatell.METHODS.map Prod.fst).Nodup ∧
    Clickatell.METHODS.length = 15 ∧
    dictGet "auth" Clickatell.METHODS = some "http/auth" ∧
    dictGet "sendmsg" Clickatell.METHODS = some "http/sendmsg" ∧
    dictGet "getbalance" Clickatell.METHODS = some "http/getbalance" ∧
    dictGet "routeCoverage" Clickatell.METHODS = some "utils/routeCoverage.php" := by
  exact ⟨by decide, rfl, rfl, rfl, rfl, rfl⟩

/-- Claim C10: when the caller supplies a `session_id` argument to an
operation call, the issued query parameters carry the client's stored
token under `session_id` (the caller's value is replaced in place), and
all other parameters are untouched. -/
theorem claim_C10 (c : Client) (g : Gateway) (name path : String)
    (args : List (String × RValue)) (v : RValue)
    (hname : dictGet name Clickatell.METHODS = some path)
    (hcaller : dictGet "session_id" args = some v) :
    requestsOf (callOperation c g name args).2 =
      [(path, dictSet args "session_id" c.session_id)] ∧
    dictGet "session_id" (dictSet args "session_id" c.session_id) = some c.session_id ∧
    (∀ k, k ≠ "session_id" → dictGet k (dictSet args "session_id" c.session_id) = dictGet k args) := by
  refine ⟨?_, dictGet_dictSet_self args "session_id" c.session_id,
    fun k hk => dictGet_dictSet_ne args "session_id" k c.session_id hk⟩
  rw [callOperation_handler c g name path args hname]
  exact requestsOf_runHandler_some c.session_id g path args

/-- Witness for C10: a caller-supplied `session_id` of `"attacker"` is
replaced by the stored token `"tok"`. -/
theorem claim_C10_witness :
    dictGet "session_id" (dictSet [("session_id", RValue.single "attacker")] "session_id"
      (RValue.single "tok")) = some (RValue.single "tok") :=
  (claim_C10 { session_id := RValue.single "tok" } demoGateway "ping" "http/ping"
    [("session_id", RValue.single "attacker")] (RValue.single "attacker")
    (by decide) (by decide)).2.1
